import Mathlib

set_option maxHeartbeats 1000000

/-!
Shallow embedding of the SDO client SDK core sources:
  src/hal/os/network_if_mbedos.c        (transport framing)
  src/crypto/openssl/openssl_RSAEncryptRoutines.c  (RSA encryption provider)
  src/hal/epid/epid_sdk_interface.c     (group-signature attestation backend)
  src/lib/prot/di/msg10.c               (protocol step DI.AppStart)

External collaborators (sockets, TLS, OpenSSL primitives, the EPID SDK,
the REST helper module and safestringlib) are modelled as oracle inputs:
each call's outcome (bytes transferred, success flag, status code) is an
explicit argument, and the embedding reproduces exactly the C control flow
around those outcomes.  Machine integers that matter only as signed
byte counts are modelled as `Int`; buffers as `List` of byte values with
`none` standing for a NULL pointer.
-/

/-! ### Transport layer: `sdoConSendMessage` (network_if_mbedos.c lines 336-452)

The model takes the results of the underlying header and body writes
(`sdo_ssl_write` on the TLS path, `mos_socketSend` on the plain path) as the
integers `nHdr` and `nBody`.  `headerLen` is the length of the REST header
produced by `constructRESTHeader`; `maxStr` is the `SDO_MAX_STR_SIZE` bound
checked against it.  `restOk` and `constructOk` are the outcomes of
`getRESTContext` and `constructRESTHeader`.  The field `disconnected`
records whether `sdoConDisconnect` was invoked during the call
(`sdoConDisconnect` itself always returns 0 in the source). -/

/-- Result of one `sdoConSendMessage` call: the C return value and whether
`sdoConDisconnect` ran during the call. -/
structure SendOut where
  ret : Int
  disconnected : Bool
deriving DecidableEq, Repr

/-- Shallow embedding of `sdoConSendMessage`.  Mirrors the source control
flow: parameter checks, REST context lookup, header construction and its
length check, then the header write followed by the body write, with the
TLS path checking only `n < 0` and the plain path distinguishing
`n <= 0` (disconnect, fail) from a short positive write (fail, no
disconnect).  On full success the source returns the body write result. -/
def sdoConSendMessage (ssl bufNull : Bool) (length : Nat)
    (restOk constructOk : Bool) (headerLen maxStr : Nat)
    (nHdr nBody : Int) : SendOut :=
  if bufNull then ⟨-1, false⟩
  else if length = 0 then ⟨-1, false⟩
  else if restOk = false then ⟨-1, false⟩
  else if constructOk = false then ⟨-1, false⟩
  else if headerLen = 0 then ⟨-1, false⟩
  else if headerLen = maxStr then ⟨-1, false⟩
  else if ssl then
    if nHdr < 0 then ⟨-1, false⟩
    else if nBody < 0 then ⟨-1, false⟩
    else ⟨nBody, false⟩
  else
    if nHdr ≤ 0 then ⟨-1, true⟩
    else if nHdr < (headerLen : Int) then ⟨-1, false⟩
    else if nBody ≤ 0 then ⟨-1, true⟩
    else if nBody < (length : Int) then ⟨-1, false⟩
    else ⟨nBody, false⟩

/-! ### Transport layer: `sdoConRecvMsgBody` (network_if_mbedos.c lines 296-323)

The chain of results returned by the underlying reads (`sdo_ssl_read` /
`mos_socketRecv`) is the `trace`.  The source loop subtracts each result
from the outstanding count `sz`, aborts only on a strictly negative
result, and keeps issuing reads while `sz > 0`; the model returns `none`
when the supplied trace is exhausted with the loop still running (the C
code would block in a further read). -/

/-- One step of the `sdoConRecvMsgBody` do-while loop over the remaining
read-result trace and the outstanding byte count.  `some true` is loop
completion, `some false` the `n < 0` abort, `none` trace exhaustion. -/
def recvBodyGo : List Int → Int → Option Bool
  | [], _ => none
  | n :: rest, sz =>
    if n < 0 then some false
    else if sz - n > 0 then recvBodyGo rest (sz - n)
    else some true

/-- Shallow embedding of `sdoConRecvMsgBody`: parameter checks, then the
read loop; on completion the source returns `length`, on the abort `-1`. -/
def sdoConRecvMsgBody (bufNull : Bool) (length : Nat) (trace : List Int) :
    Option Int :=
  if bufNull then some (-1)
  else if length = 0 then some (-1)
  else
    match recvBodyGo trace (length : Int) with
    | some true => some (length : Int)
    | some false => some (-1)
    | none => none

/-! ### Transport layer: `readUntilNewLine` / `sdoConRecvMsgHeader`
(network_if_mbedos.c lines 35-75 and 221-285)

The incoming byte stream is a `List Char`; exhausting it models a read
returning a non-positive result (the source aborts the line read there).
`readUntilNewLine` receives the line-buffer size exactly as the C function
does; it reserves one slot for the terminating NUL, silently drops
characters beyond that capacity, and strips a trailing newline (plus an
optional preceding carriage return) only when the stored line left room in
the buffer.  `sdoConRecvMsgHeader` accumulates the stripped lines into a
header buffer of the same bound via `strncat_s`/`strcat_s`, whose
safestringlib contracts fail when the destination cannot take the source
plus its NUL.  The header parse (`getRESTContentLength`) and the REST
context are external and appear as oracles. -/

/-- The post-loop terminator stripping of `readUntilNewLine`: applied only
when the stored line left room (`sz < size` after the decrement reserving
the NUL slot), it drops the stored newline and then an optional preceding
carriage return. -/
def stripCRNL (cap : Nat) (acc : List Char) : List Char :=
  if acc.length < cap ∧ 1 ≤ acc.length then
    if acc.dropLast.getLast? = some '\r' then acc.dropLast.dropLast
    else acc.dropLast
  else acc

/-- The byte-at-a-time loop of `readUntilNewLine`: stores each character
while there is room (`sz < size`), always continues until a newline is
seen, and fails when a read fails (trace exhausted). -/
def readUNLGo (cap : Nat) : List Char → List Char → Option (List Char × List Char)
  | [], _ => none
  | c :: rest, acc =>
    let acc2 := if acc.length < cap then acc ++ [c] else acc
    if c = '\n' then some (acc2, rest) else readUNLGo cap rest acc2

/-- Shallow embedding of `readUntilNewLine`: returns the stripped line and
the unconsumed remainder of the stream, or `none` on a failed read. -/
def readUntilNewLine (size : Nat) (stream : List Char) :
    Option (List Char × List Char) :=
  if size = 0 then none
  else
    match readUNLGo (size - 1) stream [] with
    | none => none
    | some (acc, rest) => some (stripCRNL (size - 1) acc, rest)

/-- A successful `readUNLGo` consumes at least the terminating newline, so
the returned remainder is strictly shorter than the input stream. -/
theorem readUNLGo_rest_lt (s : List Char) : ∀ (acc : List Char) (cap : Nat)
    (l rest : List Char), readUNLGo cap s acc = some (l, rest) →
    rest.length < s.length := by
  induction s with
  | nil => intro acc cap l rest h; simp [readUNLGo] at h
  | cons c s ih =>
    intro acc cap l rest h
    simp only [readUNLGo] at h
    by_cases hc : c = '\n'
    · simp [hc] at h
      obtain ⟨-, h2⟩ := h
      simp [← h2, List.length_cons]
    · simp [hc] at h
      have := ih _ _ _ _ h
      simp [List.length_cons]
      omega

/-- A successful `readUntilNewLine` strictly shrinks the stream. -/
theorem readUntilNewLine_rest_lt (size : Nat) (s l rest : List Char)
    (h : readUntilNewLine size s = some (l, rest)) : rest.length < s.length := by
  unfold readUntilNewLine at h
  by_cases hs : size = 0
  · simp [hs] at h
  · simp [hs] at h
    rcases h2 : readUNLGo (size - 1) s [] with - | p
    · rw [h2] at h; simp at h
    · rw [h2] at h
      simp at h
      obtain ⟨-, h4⟩ := h
      have := readUNLGo_rest_lt s [] (size - 1) p.1 p.2 (by simpa using h2)
      simpa [h4] using this

/-- The header-accumulation loop of `sdoConRecvMsgHeader`, written with
explicit fuel.  Each iteration reads one line; a line whose first
character is the header/body separator ends the loop, otherwise the line
is appended to the accumulated header (`strncat_s`, failing when the
destination cannot take the line plus a NUL) followed by a newline
(`strcat_s`, same contract).  The fuel `stream.length + 1` used by
`recvHdrLoop` is always sufficient because every iteration strictly
shrinks the stream (`readUntilNewLine_rest_lt`). -/
def recvHdrLoopF (N : Nat) (sep : Char) :
    Nat → List Char → List Char → Option (List Char × List Char)
  | 0, _, _ => none
  | fuel + 1, stream, hdr =>
    match readUntilNewLine N stream with
    | none => none
    | some (tmp, rest) =>
      if tmp.headD (Char.ofNat 0) = sep then some (hdr, rest)
      else if N < hdr.length + tmp.length + 1 then none
      else if N < hdr.length + tmp.length + 2 then none
      else recvHdrLoopF N sep fuel rest (hdr ++ tmp ++ ['\n'])

/-- The header-accumulation loop of `sdoConRecvMsgHeader` with its
(sufficient) fuel instantiated. -/
def recvHdrLoop (N : Nat) (sep : Char) (stream hdr : List Char) :
    Option (List Char × List Char) :=
  recvHdrLoopF N sep (stream.length + 1) stream hdr

/-- Any fuel larger than the stream length gives the same result, so the
fuel in `recvHdrLoop` is an artifact-free rendering of the C loop. -/
theorem recvHdrLoopF_fuel_irrelevant (N : Nat) (sep : Char) :
    ∀ (f : Nat) (g : Nat) (stream hdr : List Char),
      stream.length < f → stream.length < g →
      recvHdrLoopF N sep f stream hdr = recvHdrLoopF N sep g stream hdr := by
  intro f
  induction f with
  | zero => intro g stream hdr hf; omega
  | succ f ih =>
    intro g stream hdr hf hg
    match g, hg with
    | g + 1, hg =>
      simp only [recvHdrLoopF]
      rcases h : readUntilNewLine N stream with - | p
      · rfl
      · obtain ⟨tmp, rest⟩ := p
        have hlt := readUntilNewLine_rest_lt N stream tmp rest h
        dsimp only
        split_ifs with h1 h2 h3
        · rfl
        · rfl
        · rfl
        · exact ih g rest (hdr ++ tmp ++ ['\n']) (by omega) (by omega)

/-- Shallow embedding of `sdoConRecvMsgHeader`.  `parse` is the external
`getRESTContentLength`, `restCtx` the protocol version and message type
held by the external REST context; `N` is `REST_MAX_MSGHDR_SIZE` and `sep`
the header/body separator character, both defined outside the provided
sources.  Returns the (protocolVersion, messageType, msglen) triple or
`none` for the -1 error return. -/
def sdoConRecvMsgHeader (N : Nat) (sep : Char) (parse : List Char → Option Nat)
    (restCtx : Option (Nat × Nat)) (outNull : Bool) (stream : List Char) :
    Option (Nat × Nat × Nat) :=
  if outNull then none
  else
    match recvHdrLoop N sep stream [] with
    | none => none
    | some (hdr, _) =>
      match parse hdr with
      | none => none
      | some len =>
        match restCtx with
        | none => none
        | some pm => some (pm.1, pm.2, len)

/-! ### Claim C1 and C2 theorems -/

/-- Every read result in the trace being nonnegative rules out the
`n < 0` abort of the body-read loop. -/
theorem recvBodyGo_nonneg_ne_false (trace : List Int) : ∀ sz : Int,
    (∀ n ∈ trace, 0 ≤ n) → recvBodyGo trace sz ≠ some false := by
  induction trace with
  | nil => intro sz _; simp [recvBodyGo]
  | cons n rest ih =>
    intro sz h
    have hn : 0 ≤ n := h n (by simp)
    have hrest : ∀ m ∈ rest, 0 ≤ m := fun m hm => h m (by simp [hm])
    simp only [recvBodyGo]
    rw [if_neg (by omega)]
    by_cases hsz : sz - n > 0
    · simpa [hsz] using ih (sz - n) hrest
    · simp [hsz]

/-- If the body-read loop aborts, some read in the trace was negative. -/
theorem recvBodyGo_false_has_neg (trace : List Int) : ∀ sz : Int,
    recvBodyGo trace sz = some false → ∃ n ∈ trace, n < 0 := by
  induction trace with
  | nil => intro sz h; simp [recvBodyGo] at h
  | cons n rest ih =>
    intro sz h
    simp only [recvBodyGo] at h
    by_cases hn : n < 0
    · exact ⟨n, by simp, hn⟩
    · rw [if_neg hn] at h
      by_cases hsz : sz - n > 0
      · rw [if_pos hsz] at h
        obtain ⟨m, hm, hm2⟩ := ih (sz - n) h
        exact ⟨m, by simp [hm], hm2⟩
      · rw [if_neg hsz] at h; simp at h

/-- C2 (counterexample to the claim as stated): with requested length 2 and
the underlying reads returning 0 and then 2, a zero (non-positive) read
result occurs before the length is collected, yet `sdoConRecvMsgBody`
retries and returns 2 instead of failing with -1. -/
theorem recvMsgBody_zero_read_counterexample :
    sdoConRecvMsgBody false 2 [0, 2] = some 2 ∧
      sdoConRecvMsgBody false 2 [0, 2] ≠ some (-1) := by decide

/-- After any run of nonnegative reads that has not yet collected the
outstanding `sz` bytes, a strictly negative read makes the body-read
loop abort. -/
theorem recvBodyGo_neg_read (pre : List Int) : ∀ (n : Int) (rest : List Int)
    (sz : Int), (∀ m ∈ pre, 0 ≤ m) → n < 0 → pre.sum < sz →
    recvBodyGo (pre ++ n :: rest) sz = some false := by
  induction pre with
  | nil =>
    intro n rest sz _ hn _
    simp [recvBodyGo, hn]
  | cons m pre ih =>
    intro n rest sz hpos hn hsum
    have hm : 0 ≤ m := hpos m (by simp)
    have hpre : ∀ x ∈ pre, 0 ≤ x := fun x hx => hpos x (by simp [hx])
    have hnn : 0 ≤ pre.sum := List.sum_nonneg hpre
    simp only [List.cons_append, recvBodyGo]
    rw [if_neg (by omega)]
    rw [if_pos (by simp only [List.sum_cons] at hsum; omega)]
    exact ih n rest (sz - m) hpre hn
      (by simp only [List.sum_cons] at hsum; omega)

/-- C2 (amended): `sdoConRecvMsgBody` with a non-null buffer and non-zero
length fails with -1 exactly when an individual read returns a strictly
negative result: any negative read issued before `length` bytes have
been collected (i.e. after nonnegative reads summing to less than
`length`) makes the call return -1 — hard I/O errors are not retried —
while zero-byte and partial positive reads are both retried, a trace of
only nonnegative reads can never produce -1, and whenever the call
returns at all it returns either -1 or exactly `length`. -/
theorem recvMsgBody_amended (length : Nat) (trace : List Int)
    (hlen : 0 < length) :
    (∀ (pre : List Int) (n : Int) (rest : List Int), (∀ m ∈ pre, 0 ≤ m) →
      n < 0 → pre.sum < (length : Int) →
      sdoConRecvMsgBody false length (pre ++ n :: rest) = some (-1))
  ∧ ((∀ n ∈ trace, 0 ≤ n) → sdoConRecvMsgBody false length trace ≠ some (-1))
  ∧ (sdoConRecvMsgBody false length trace = some (-1) → ∃ n ∈ trace, n < 0)
  ∧ (∀ r : Int, sdoConRecvMsgBody false length trace = some r →
      r = -1 ∨ r = (length : Int)) := by
  have hl : length ≠ 0 := by omega
  have key : sdoConRecvMsgBody false length trace = some (-1) →
      ∃ n ∈ trace, n < 0 := by
    intro h
    simp only [sdoConRecvMsgBody, Bool.false_eq_true, if_false, hl] at h
    rcases hc : recvBodyGo trace (length : Int) with - | b
    · rw [hc] at h; simp at h
    · cases b
      · exact recvBodyGo_false_has_neg trace _ hc
      · rw [hc] at h
        simp only [Option.some.injEq] at h
        omega
  refine ⟨?_, ?_, key, ?_⟩
  · intro pre n rest hpos hn hsum
    have hgo := recvBodyGo_neg_read pre n rest (length : Int) hpos hn hsum
    simp only [sdoConRecvMsgBody, Bool.false_eq_true, if_false, hl]
    rw [hgo]
  · intro hpos hcontra
    obtain ⟨n, hn, hneg⟩ := key hcontra
    have := hpos n hn
    omega
  · intro r h
    simp only [sdoConRecvMsgBody, Bool.false_eq_true, if_false, hl] at h
    rcases hc : recvBodyGo trace (length : Int) with - | b
    · rw [hc] at h; simp at h
    · cases b <;> rw [hc] at h <;> simp only [Option.some.injEq] at h <;> omega

/-- C2 witness: concrete runs discharging the amended theorem's
hypotheses — a partial positive read followed by a negative read fails
with -1, and two partial positive reads collecting the length never
produce -1. -/
theorem recvMsgBody_amended_witness :
    sdoConRecvMsgBody false 2 ([1] ++ (-1) :: [5]) = some (-1)
  ∧ sdoConRecvMsgBody false 2 [1, 1] ≠ some (-1) :=
  ⟨(recvMsgBody_amended 2 [1, 1] (by decide)).1 [1] (-1) [5] (by decide)
      (by decide) (by decide),
    (recvMsgBody_amended 2 [1, 1] (by decide)).2.1 (by decide)⟩

/-- C1 (counterexample to the claim as stated): on the TLS path, a body
write that transfers 4 of 10 requested bytes (a short write) is not
reported as failure and the connection is not torn down: the call returns
4 and never invokes `sdoConDisconnect`. -/
theorem sendMessage_tls_short_write_counterexample :
    sdoConSendMessage true false 10 true true 5 100 5 4 = ⟨4, false⟩ ∧
      (4 : Int) < 10 := by decide

/-- C1 (amended): on the plain-socket path a header or body write
returning zero or a negative value yields -1 after tearing down the
connection, while a short positive write yields -1 without teardown and
without retry; on the TLS path only a negative write result yields -1
(again without teardown), and a short nonnegative TLS write is not
detected: the call returns the body write's result as success. -/
theorem sendMessage_shortWrite_amended (length headerLen maxStr : Nat)
    (nHdr nBody : Int) (h1 : length ≠ 0) (h2 : headerLen ≠ 0)
    (h3 : headerLen ≠ maxStr) :
    (nHdr ≤ 0 →
      sdoConSendMessage false false length true true headerLen maxStr nHdr nBody
        = ⟨-1, true⟩)
  ∧ (0 < nHdr → nHdr < (headerLen : Int) →
      sdoConSendMessage false false length true true headerLen maxStr nHdr nBody
        = ⟨-1, false⟩)
  ∧ ((headerLen : Int) ≤ nHdr → nBody ≤ 0 →
      sdoConSendMessage false false length true true headerLen maxStr nHdr nBody
        = ⟨-1, true⟩)
  ∧ ((headerLen : Int) ≤ nHdr → 0 < nBody → nBody < (length : Int) →
      sdoConSendMessage false false length true true headerLen maxStr nHdr nBody
        = ⟨-1, false⟩)
  ∧ (nHdr < 0 →
      sdoConSendMessage true false length true true headerLen maxStr nHdr nBody
        = ⟨-1, false⟩)
  ∧ (0 ≤ nHdr → nBody < 0 →
      sdoConSendMessage true false length true true headerLen maxStr nHdr nBody
        = ⟨-1, false⟩)
  ∧ (0 ≤ nHdr → 0 ≤ nBody →
      sdoConSendMessage true false length true true headerLen maxStr nHdr nBody
        = ⟨nBody, false⟩) := by
  unfold sdoConSendMessage
  refine ⟨?_, ?_, ?_, ?_, ?_, ?_, ?_⟩
  · intro ha
    split_ifs <;> first | rfl | omega | simp_all
  · intro ha hb
    split_ifs <;> first | rfl | omega | simp_all
  · intro ha hb
    split_ifs <;> first | rfl | omega | simp_all
  · intro ha hb hc
    split_ifs <;> first | rfl | omega | simp_all
  · intro ha
    split_ifs <;> first | rfl | omega | simp_all
  · intro ha hb
    split_ifs <;> first | rfl | omega | simp_all
  · intro ha hb
    split_ifs <;> first | rfl | omega | simp_all

/-- C1 witness: a concrete plain-socket call whose header write transfers
3 of 5 bytes, discharged through the amended theorem. -/
theorem sendMessage_shortWrite_amended_witness :
    sdoConSendMessage false false 10 true true 5 100 3 7 = ⟨-1, false⟩ :=
  (sendMessage_shortWrite_amended 10 5 100 3 7 (by decide) (by decide)
    (by decide)).2.1 (by decide) (by decide)

/-! ### Claim C5 theorems -/

/-- The last element of a list is an element of it, so a value not in the
list is not its last element. -/
theorem getLast?_ne_of_not_mem (l : List Char) (a : Char) (h : a ∉ l) :
    l.getLast? ≠ some a := fun hc => h (List.mem_of_mem_getLast? hc)

/-- When the whole line plus its newline fits the line buffer, the
`readUntilNewLine` loop stores all of it and stops right after the
newline. -/
theorem readUNLGo_append (line : List Char) : ∀ (acc : List Char) (cap : Nat)
    (rest : List Char), '\n' ∉ line → acc.length + line.length + 1 ≤ cap →
    readUNLGo cap (line ++ '\n' :: rest) acc
      = some (acc ++ line ++ ['\n'], rest) := by
  induction line with
  | nil =>
    intro acc cap rest _ hlen
    have hlt : acc.length < cap := by simp at hlen; omega
    simp [readUNLGo, hlt]
  | cons c line ih =>
    intro acc cap rest hnl hlen
    have hc : c ≠ '\n' := fun h => hnl (by simp [h])
    have hnl2 : '\n' ∉ line := fun h => hnl (by simp [h])
    have hlt : acc.length < cap := by simp at hlen; omega
    simp only [List.cons_append, readUNLGo]
    rw [if_neg hc, if_pos hlt]
    simp only [List.append_eq]
    rw [ih (acc ++ [c]) cap rest hnl2 (by simp at hlen ⊢; omega)]
    simp

/-- When the line is at least as long as the line-buffer capacity, the
`readUntilNewLine` loop keeps only the first `cap` characters and drops
the rest without reporting an error. -/
theorem readUNLGo_truncate (line : List Char) : ∀ (acc : List Char) (cap : Nat)
    (rest : List Char), '\n' ∉ line → acc.length ≤ cap →
    cap ≤ acc.length + line.length →
    readUNLGo cap (line ++ '\n' :: rest) acc
      = some ((acc ++ line).take cap, rest) := by
  induction line with
  | nil =>
    intro acc cap rest _ h1 h2
    have hnlt : ¬ acc.length < cap := by simp at h2; omega
    simp [readUNLGo, hnlt, List.take_of_length_le h1]
  | cons c line ih =>
    intro acc cap rest hnl h1 h2
    have hc : c ≠ '\n' := fun h => hnl (by simp [h])
    have hnl2 : '\n' ∉ line := fun h => hnl (by simp [h])
    by_cases hlt : acc.length < cap
    · simp only [List.cons_append, readUNLGo]
      rw [if_neg hc, if_pos hlt]
      simp only [List.append_eq]
      rw [ih (acc ++ [c]) cap rest hnl2 (by simp; omega) (by simp at h2 ⊢; omega)]
      simp
    · have heq : acc.length = cap := by omega
      simp only [List.cons_append, readUNLGo]
      rw [if_neg hc, if_neg hlt]
      simp only [List.append_eq]
      rw [ih acc cap rest hnl2 h1 (by simp at h2 ⊢; omega)]
      have e1 : (acc ++ line).take cap = acc := by
        rw [← heq]; exact List.take_left acc line
      have e2 : (acc ++ c :: line).take cap = acc := by
        rw [← heq]; exact List.take_left acc (c :: line)
      rw [e1, e2]

/-- C5 (counterexample to the claim as stated): with a line buffer of 8
bytes (capacity 7 after the NUL slot), a header/body separator line of 11
characters is silently truncated — 4 of its bytes are discarded — and
`sdoConRecvMsgHeader` still succeeds, contradicting both "fails whenever
the accumulated header content (including any single header line) would
exceed the bounded buffer" and "no header bytes are silently discarded". -/
theorem recvMsgHeader_discard_counterexample :
    sdoConRecvMsgHeader 8 'h' (fun _ => some 5) (some (113, 40)) false
        ('h' :: List.replicate 10 'a' ++ '\n' :: 'X' :: 'Y' :: [])
      = some (113, 40, 5)
  ∧ readUntilNewLine 8 ('h' :: List.replicate 10 'a' ++ '\n' :: 'X' :: 'Y' :: [])
      = some ('h' :: List.replicate 6 'a', ['X', 'Y']) := by decide

/-- C5 (amended): line terminators (newline, optional preceding carriage
return) are stripped from every line that fits the line buffer before
accumulation; a line at least as long as the buffer capacity is silently
truncated to its first `size - 1` characters by `readUntilNewLine` rather
than reported; and whenever an accumulated (possibly truncated)
non-separator line would overflow the bounded header buffer — which is
always the case for a truncated line — `sdoConRecvMsgHeader`'s
accumulation loop fails with an error, so oversize accumulated content is
never returned.  (Bytes of an overlong separator line, however, are
discarded with the call still succeeding, which is what refutes the
original claim.) -/
theorem recvMsgHeader_amended :
    (∀ (size : Nat) (line rest : List Char), '\n' ∉ line → '\r' ∉ line →
        line.length + 3 ≤ size →
        readUntilNewLine size (line ++ '\n' :: rest) = some (line, rest))
  ∧ (∀ (size : Nat) (line rest : List Char), '\n' ∉ line → '\r' ∉ line →
        line.length + 4 ≤ size →
        readUntilNewLine size (line ++ '\r' :: '\n' :: rest) = some (line, rest))
  ∧ (∀ (size : Nat) (line rest : List Char), 1 ≤ size → '\n' ∉ line →
        size - 1 ≤ line.length →
        readUntilNewLine size (line ++ '\n' :: rest)
          = some (line.take (size - 1), rest))
  ∧ (∀ (N : Nat) (sep : Char) (stream hdr tmp rest : List Char),
        readUntilNewLine N stream = some (tmp, rest) →
        tmp.headD (Char.ofNat 0) ≠ sep → N < hdr.length + tmp.length + 2 →
        recvHdrLoop N sep stream hdr = none)
  ∧ (∀ (N : Nat) (sep : Char) (line rest hdr : List Char), 1 ≤ N →
        '\n' ∉ line → N - 1 ≤ line.length →
        (line.take (N - 1)).headD (Char.ofNat 0) ≠ sep →
        recvHdrLoop N sep (line ++ '\n' :: rest) hdr = none) := by
  have part1 : ∀ (size : Nat) (line rest : List Char), '\n' ∉ line →
      '\r' ∉ line → line.length + 3 ≤ size →
      readUntilNewLine size (line ++ '\n' :: rest) = some (line, rest) := by
    intro size line rest hnl hnr hlen
    unfold readUntilNewLine
    rw [if_neg (by omega)]
    rw [readUNLGo_append line [] (size - 1) rest hnl (by simp; omega)]
    dsimp only
    have hstrip : stripCRNL (size - 1) ([] ++ line ++ ['\n']) = line := by
      simp only [List.nil_append]
      unfold stripCRNL
      rw [if_pos ⟨by simp; omega, by simp⟩]
      rw [show (line ++ ['\n']).dropLast = line by simp]
      rw [if_neg (getLast?_ne_of_not_mem line '\r' hnr)]
    rw [hstrip]
  have part2 : ∀ (size : Nat) (line rest : List Char), '\n' ∉ line →
      '\r' ∉ line → line.length + 4 ≤ size →
      readUntilNewLine size (line ++ '\r' :: '\n' :: rest) = some (line, rest) := by
    intro size line rest hnl hnr hlen
    have hnl2 : '\n' ∉ line ++ ['\r'] := by
      intro h
      rcases List.mem_append.mp h with h | h
      · exact hnl h
      · simp at h
    unfold readUntilNewLine
    rw [if_neg (by omega)]
    rw [show line ++ '\r' :: '\n' :: rest = (line ++ ['\r']) ++ '\n' :: rest by simp]
    rw [readUNLGo_append (line ++ ['\r']) [] (size - 1) rest hnl2 (by simp; omega)]
    dsimp only
    have hstrip : stripCRNL (size - 1) ([] ++ (line ++ ['\r']) ++ ['\n']) = line := by
      simp only [List.nil_append]
      unfold stripCRNL
      rw [if_pos ⟨by simp; omega, by simp⟩]
      rw [show (line ++ ['\r'] ++ ['\n']).dropLast = line ++ ['\r'] by simp]
      rw [if_pos (by simp)]
      simp
    rw [hstrip]
  have part3 : ∀ (size : Nat) (line rest : List Char), 1 ≤ size →
      '\n' ∉ line → size - 1 ≤ line.length →
      readUntilNewLine size (line ++ '\n' :: rest)
        = some (line.take (size - 1), rest) := by
    intro size line rest hs hnl hlen
    unfold readUntilNewLine
    rw [if_neg (by omega)]
    rw [readUNLGo_truncate line [] (size - 1) rest hnl (by simp) (by simp; omega)]
    dsimp only
    have hstrip : stripCRNL (size - 1) (([] ++ line).take (size - 1))
        = line.take (size - 1) := by
      simp only [List.nil_append]
      unfold stripCRNL
      rw [if_neg (by rw [List.length_take]; omega)]
    rw [hstrip]
  have part4 : ∀ (N : Nat) (sep : Char) (stream hdr tmp rest : List Char),
      readUntilNewLine N stream = some (tmp, rest) →
      tmp.headD (Char.ofNat 0) ≠ sep → N < hdr.length + tmp.length + 2 →
      recvHdrLoop N sep stream hdr = none := by
    intro N sep stream hdr tmp rest h hne hlen
    unfold recvHdrLoop
    simp only [recvHdrLoopF]
    rw [h]
    dsimp only
    rw [if_neg hne]
    by_cases h1 : N < hdr.length + tmp.length + 1
    · rw [if_pos h1]
    · rw [if_neg h1, if_pos (by omega)]
  refine ⟨part1, part2, part3, part4, ?_⟩
  intro N sep line rest hdr hN hnl hlen hne
  exact part4 N sep (line ++ '\n' :: rest) hdr (line.take (N - 1)) rest
    (part3 N line rest hN hnl hlen) hne (by rw [List.length_take]; omega)

/-- C5 witness: a concrete two-character line with terminator is read and
stripped, discharged through the amended theorem's first conjunct. -/
theorem recvMsgHeader_amended_witness :
    readUntilNewLine 10 (['a', 'b'] ++ '\n' :: ['X']) = some (['a', 'b'], ['X']) :=
  recvMsgHeader_amended.1 10 ['a', 'b'] ['X'] (by decide) (by decide) (by decide)

/-! ### Crypto provider: `sdoCryptoRSAEncrypt` / `sdoCryptoRSALen`
(openssl_RSAEncryptRoutines.c)

Key material is a byte list (each entry the value of one `uint8_t`) with
`none` standing for a NULL pointer, so a parameter's length is the list
length.  The outcomes of the OpenSSL primitives are oracle booleans.  The
function-local `static const EVP_MD *evp_md` of `sdoCryptoRSAEncrypt` is
process-wide state: it enters a call as `md0` and leaves it as the
`mdState` field of the result. -/

/-- Hash type argument of `sdoCryptoRSAEncrypt` (`SDO_PK_HASH_*`). -/
inductive HashT
  | sha1
  | sha256
  | sha384
  | otherHash
deriving DecidableEq, Repr

/-- The digests the source ever stores in its `static` local `evp_md`
(`EVP_sha256()` / `EVP_sha384()`). -/
inductive MDAlg
  | sha256
  | sha384
deriving DecidableEq, Repr

/-- Public key encoding tag (`SDO_CRYPTO_PUB_KEY_ENCODING_RSA_MOD_EXP`
versus anything else). -/
inductive KeyEnc
  | rsaModExp
  | otherEnc
deriving DecidableEq, Repr

/-- Public key algorithm tag (`SDO_CRYPTO_PUB_KEY_ALGO_RSA` versus
anything else). -/
inductive KeyAlg
  | rsa
  | otherAlg
deriving DecidableEq, Repr

/-- The padding configuration an encryption call applies: the legacy
`RSA_public_encrypt(..., RSA_PKCS1_OAEP_PADDING)` path, or the
`EVP_PKEY_CTX` path with the OAEP digest and the MGF1 digest both set to
`md`. -/
inductive PadUse
  | legacyOaep
  | oaepMgf1 (md : MDAlg)
deriving DecidableEq, Repr

/-- `BN_num_bytes` of `BN_bin2bn` applied to a big-endian byte buffer:
the buffer length minus its leading zero bytes.  `RSA_size` of the
converted key is this value for the modulus buffer. -/
def bnNumBytes (l : List Nat) : Nat := (l.dropWhile (· = 0)).length

/-- Shallow embedding of `convert2pkey` (lines 67-154): fails when either
key-component pointer is NULL, otherwise yields the (modulus, exponent)
buffers loaded by `BN_bin2bn`.  OpenSSL allocation failures, which no
claim concerns, are modelled as succeeding. -/
def convert2pkey (key1 key2 : Option (List Nat)) :
    Option (List Nat × List Nat) :=
  match key1, key2 with
  | some k1, some k2 => some (k1, k2)
  | _, _ => none

/-- Observable outcome of one `sdoCryptoRSAEncrypt` call: the return
value, the `static evp_md` state after the call, the padding
configuration applied (if the call got that far), whether a
ciphertext-producing primitive ran, whether the
`cipherCalLength > cipherTextLength` check fired, and
allocation/release flags for the converted RSA key, the `EVP_PKEY`, the
`EVP_PKEY_CTX` and the intermediate `out` ciphertext buffer. -/
structure RSAEncOut where
  ret : Int
  mdState : Option MDAlg
  usedPadding : Option PadUse
  encryptCalled : Bool
  capacityFailed : Bool
  rkeyAllocated : Bool
  rkeyFreed : Bool
  pkeyAllocated : Bool
  pkeyFreed : Bool
  ctxAllocated : Bool
  ctxFreed : Bool
  outAllocated : Bool
  outFreed : Bool
deriving DecidableEq, Repr

/-- Outcome of the argument-validation early returns of
`sdoCryptoRSAEncrypt`, before anything is allocated. -/
def rsaEncFail (md0 : Option MDAlg) : RSAEncOut :=
  { ret := -1, mdState := md0, usedPadding := none, encryptCalled := false,
    capacityFailed := false, rkeyAllocated := false, rkeyFreed := false,
    pkeyAllocated := false, pkeyFreed := false, ctxAllocated := false,
    ctxFreed := false, outAllocated := false, outFreed := false }

/-- The shared `EVP_PKEY_CTX` tail of the SHA-384/SHA-256 switch cases
(the SHA-384 case assigns `evp_md` and falls through into the SHA-256
case); `md1` is the digest `evp_md` holds when the tail runs.  A NULL
context or a failed `EVP_PKEY_encrypt_init` jumps to the error label
with `ret` still 0, exactly as in the source; the padding and MGF1
digest are configured only after a successful init. -/
def rsaEncryptEvpTail (md1 : MDAlg)
    (ctxNewOk encInitOk encLenOk mallocOk encOk : Bool) : RSAEncOut :=
  if ctxNewOk = false then
    { ret := 0, mdState := some md1, usedPadding := none,
      encryptCalled := false, capacityFailed := false,
      rkeyAllocated := true, rkeyFreed := true,
      pkeyAllocated := true, pkeyFreed := true,
      ctxAllocated := false, ctxFreed := false,
      outAllocated := false, outFreed := false }
  else if encInitOk = false then
    { ret := 0, mdState := some md1, usedPadding := none,
      encryptCalled := false, capacityFailed := false,
      rkeyAllocated := true, rkeyFreed := true,
      pkeyAllocated := true, pkeyFreed := true,
      ctxAllocated := true, ctxFreed := true,
      outAllocated := false, outFreed := false }
  else if encLenOk = false then
    { ret := -1, mdState := some md1,
      usedPadding := some (PadUse.oaepMgf1 md1),
      encryptCalled := false, capacityFailed := false,
      rkeyAllocated := true, rkeyFreed := true,
      pkeyAllocated := true, pkeyFreed := true,
      ctxAllocated := true, ctxFreed := true,
      outAllocated := false, outFreed := false }
  else if mallocOk = false then
    { ret := -1, mdState := some md1,
      usedPadding := some (PadUse.oaepMgf1 md1),
      encryptCalled := false, capacityFailed := false,
      rkeyAllocated := true, rkeyFreed := true,
      pkeyAllocated := true, pkeyFreed := true,
      ctxAllocated := true, ctxFreed := true,
      outAllocated := false, outFreed := false }
  else if encOk = false then
    { ret := -1, mdState := some md1,
      usedPadding := some (PadUse.oaepMgf1 md1),
      encryptCalled := true, capacityFailed := false,
      rkeyAllocated := true, rkeyFreed := true,
      pkeyAllocated := true, pkeyFreed := true,
      ctxAllocated := true, ctxFreed := true,
      outAllocated := true, outFreed := true }
  else
    { ret := 0, mdState := some md1,
      usedPadding := some (PadUse.oaepMgf1 md1),
      encryptCalled := true, capacityFailed := false,
      rkeyAllocated := true, rkeyFreed := true,
      pkeyAllocated := true, pkeyFreed := true,
      ctxAllocated := true, ctxFreed := true,
      outAllocated := true, outFreed := true }

/-- Shallow embedding of `sdoCryptoRSAEncrypt` (lines 174-323).  `md0` is
the value of the `static` local `evp_md` at entry (`none` = NULL);
`cipherNull` says whether the `cipherText` output pointer is NULL.  The
oracle booleans are the outcomes of `RSA_public_encrypt` (unused in the
observable outcome: on its success the final `memcpy_s` still fails
because its source, the never-assigned heap pointer `out`, is NULL on
the SHA-1 branch, so that branch ends with `ret = -1` either way),
`EVP_PKEY_CTX_new`, `EVP_PKEY_encrypt_init`, the length query
`EVP_PKEY_encrypt`, `OPENSSL_malloc`, and the encrypting
`EVP_PKEY_encrypt`.  Note that the capacity check
`cipherCalLength > cipherTextLength` returns -1 directly, without
reaching the error label that frees `rkey` and `pkey`. -/
def sdoCryptoRSAEncrypt (md0 : Option MDAlg) (hashType : HashT)
    (keyEncoding : KeyEnc) (keyAlgorithm : KeyAlg)
    (clearText : Option (List Nat)) (cipherNull : Bool)
    (cipherTextLength : Nat) (keyParam1 keyParam2 : Option (List Nat))
    (rsaEncOk ctxNewOk encInitOk encLenOk mallocOk encOk : Bool) : RSAEncOut :=
  if keyEncoding ≠ KeyEnc.rsaModExp ∨ keyAlgorithm ≠ KeyAlg.rsa then
    rsaEncFail md0
  else if clearText = none ∨ clearText = some [] then rsaEncFail md0
  else if keyParam1 = none ∨ keyParam1 = some [] then rsaEncFail md0
  else if keyParam2 = none ∨ keyParam2 = some [] then rsaEncFail md0
  else
    match convert2pkey keyParam1 keyParam2 with
    | none => rsaEncFail md0
    | some nk =>
      if cipherNull then
        { ret := (bnNumBytes nk.1 : Int), mdState := md0, usedPadding := none,
          encryptCalled := false, capacityFailed := false,
          rkeyAllocated := true, rkeyFreed := true,
          pkeyAllocated := true, pkeyFreed := true,
          ctxAllocated := false, ctxFreed := false,
          outAllocated := false, outFreed := false }
      else if cipherTextLength < bnNumBytes nk.1 then
        { ret := -1, mdState := md0, usedPadding := none,
          encryptCalled := false, capacityFailed := true,
          rkeyAllocated := true, rkeyFreed := false,
          pkeyAllocated := true, pkeyFreed := false,
          ctxAllocated := false, ctxFreed := false,
          outAllocated := false, outFreed := false }
      else
        match hashType with
        | HashT.sha1 =>
          { ret := -1, mdState := md0, usedPadding := some PadUse.legacyOaep,
            encryptCalled := true, capacityFailed := false,
            rkeyAllocated := true, rkeyFreed := true,
            pkeyAllocated := true, pkeyFreed := true,
            ctxAllocated := false, ctxFreed := false,
            outAllocated := false, outFreed := false }
        | HashT.sha384 =>
          rsaEncryptEvpTail MDAlg.sha384 ctxNewOk encInitOk encLenOk mallocOk
            encOk
        | HashT.sha256 =>
          rsaEncryptEvpTail
            (match md0 with | none => MDAlg.sha256 | some m => m)
            ctxNewOk encInitOk encLenOk mallocOk encOk
        | HashT.otherHash =>
          { ret := -1, mdState := md0, usedPadding := none,
            encryptCalled := false, capacityFailed := false,
            rkeyAllocated := true, rkeyFreed := true,
            pkeyAllocated := true, pkeyFreed := true,
            ctxAllocated := false, ctxFreed := false,
            outAllocated := false, outFreed := false }

/-- Observable outcome of `sdoCryptoRSALen`: the returned length and
whether `convert2pkey` was invoked during the call. -/
structure RSALenOut where
  ret : Nat
  conversionAttempted : Bool
deriving DecidableEq, Repr

/-- Shallow embedding of `sdoCryptoRSALen` (lines 334-363): its guard
logs "Invalid parameters" and returns 0 precisely when all four validity
conditions (both pointers non-NULL, both lengths non-zero) hold, and
only otherwise falls through to `convert2pkey` and `RSA_size`. -/
def sdoCryptoRSALen (keyParam1 keyParam2 : Option (List Nat)) : RSALenOut :=
  if keyParam1 ≠ none ∧ keyParam1 ≠ some [] ∧ keyParam2 ≠ none ∧
      keyParam2 ≠ some [] then
    { ret := 0, conversionAttempted := false }
  else
    match convert2pkey keyParam1 keyParam2 with
    | none => { ret := 0, conversionAttempted := true }
    | some nk => { ret := bnNumBytes nk.1, conversionAttempted := true }

/-! ### Claim C3, C7, C8, C9 theorems -/

/-- C3: the padding configuration of `sdoCryptoRSAEncrypt` is NOT a
function of the `hashType` argument alone.  Because `evp_md` is a
`static` local, a SHA-384 call leaves `evp_md = EVP_sha384()` behind;
a subsequent SHA-256 call in the same process finds `evp_md` non-NULL,
skips the `EVP_sha256()` assignment the source's own comment describes,
and configures OAEP and MGF1 with SHA-384.  Evaluated here on valid key
material with every backend call succeeding: the first call (fresh
process state, hashType SHA-384) uses and stores SHA-384; the second call
(hashType SHA-256, same process state) uses SHA-384, not SHA-256. -/
theorem rsaEncrypt_static_evp_md_bug :
    (sdoCryptoRSAEncrypt none HashT.sha384 KeyEnc.rsaModExp KeyAlg.rsa
        (some [7]) false 2 (some [1, 0]) (some [1])
        true true true true true true).usedPadding
      = some (PadUse.oaepMgf1 MDAlg.sha384)
  ∧ (sdoCryptoRSAEncrypt none HashT.sha384 KeyEnc.rsaModExp KeyAlg.rsa
        (some [7]) false 2 (some [1, 0]) (some [1])
        true true true true true true).mdState = some MDAlg.sha384
  ∧ (sdoCryptoRSAEncrypt (some MDAlg.sha384) HashT.sha256 KeyEnc.rsaModExp
        KeyAlg.rsa (some [7]) false 2 (some [1, 0]) (some [1])
        true true true true true true).usedPadding
      = some (PadUse.oaepMgf1 MDAlg.sha384)
  ∧ (sdoCryptoRSAEncrypt (some MDAlg.sha384) HashT.sha256 KeyEnc.rsaModExp
        KeyAlg.rsa (some [7]) false 2 (some [1, 0]) (some [1])
        true true true true true true).usedPadding
      ≠ some (PadUse.oaepMgf1 MDAlg.sha256) := by decide

/-- C7: with valid RSA key material (correct tags, non-empty modulus,
exponent and plaintext) and a NULL ciphertext buffer,
`sdoCryptoRSAEncrypt` returns the key's modulus size in bytes
(`RSA_size`, i.e. the modulus buffer length minus leading zero bytes)
without invoking any encryption primitive, and a subsequent call with a
buffer of exactly that size does not fail the capacity check. -/
theorem rsaEncrypt_null_buffer_two_phase (md0 : Option MDAlg)
    (hashType : HashT) (k1 k2 ct : List Nat) (o1 o2 o3 o4 o5 o6 : Bool)
    (h1 : k1 ≠ []) (h2 : k2 ≠ []) (hct : ct ≠ []) :
    ((sdoCryptoRSAEncrypt md0 hashType KeyEnc.rsaModExp KeyAlg.rsa (some ct)
        true 0 (some k1) (some k2) o1 o2 o3 o4 o5 o6).ret
        = (bnNumBytes k1 : Int)
      ∧ (sdoCryptoRSAEncrypt md0 hashType KeyEnc.rsaModExp KeyAlg.rsa
        (some ct) true 0 (some k1) (some k2) o1 o2 o3 o4 o5
        o6).encryptCalled = false)
  ∧ (sdoCryptoRSAEncrypt md0 hashType KeyEnc.rsaModExp KeyAlg.rsa (some ct)
        false (bnNumBytes k1) (some k1) (some k2) o1 o2 o3 o4 o5
        o6).capacityFailed = false := by
  refine ⟨⟨?_, ?_⟩, ?_⟩
  · simp [sdoCryptoRSAEncrypt, convert2pkey, h1, h2, hct]
  · simp [sdoCryptoRSAEncrypt, convert2pkey, h1, h2, hct]
  · simp only [sdoCryptoRSAEncrypt, convert2pkey]
    rw [if_neg (by simp), if_neg (by simp [hct]), if_neg (by simp [h1]),
      if_neg (by simp [h2])]
    dsimp only
    rw [if_neg (by simp), if_neg (by omega)]
    cases hashType <;>
      simp [rsaEncryptEvpTail] <;> split_ifs <;> rfl

/-- C7 witness: the two-phase contract at a concrete 2-byte-modulus key,
discharged through the claim theorem. -/
theorem rsaEncrypt_null_buffer_two_phase_witness :
    (sdoCryptoRSAEncrypt none HashT.sha256 KeyEnc.rsaModExp KeyAlg.rsa
        (some [7]) true 0 (some [1, 0]) (some [1]) true true true true true
        true).ret = (bnNumBytes [1, 0] : Int) :=
  (rsaEncrypt_null_buffer_two_phase none HashT.sha256 [1, 0] [1] [7] true
    true true true true true (by decide) (by decide) (by decide)).1.1

/-- C8: on the capacity-check exit path (caller-supplied buffer smaller
than the required length) `sdoCryptoRSAEncrypt` returns -1 directly
without releasing the converted RSA key or the `EVP_PKEY`, both of which
were allocated by `convert2pkey` during this call: evaluated at valid
key material with a 2-byte modulus and a 1-byte output buffer. -/
theorem rsaEncrypt_capacity_path_leaks :
    sdoCryptoRSAEncrypt none HashT.sha256 KeyEnc.rsaModExp KeyAlg.rsa
        (some [7]) false 1 (some [1, 0]) (some [1]) true true true true true
        true
      = { ret := -1, mdState := none, usedPadding := none,
          encryptCalled := false, capacityFailed := true,
          rkeyAllocated := true, rkeyFreed := false,
          pkeyAllocated := true, pkeyFreed := false,
          ctxAllocated := false, ctxFreed := false,
          outAllocated := false, outFreed := false } := by decide

/-- C9: for all valid key material (both pointers non-NULL, both lengths
non-zero) `sdoCryptoRSALen` returns 0 — the documented failure value —
without invoking `convert2pkey`, and it invokes `convert2pkey` exactly
when at least one validity condition fails. -/
theorem rsaLen_valid_returns_zero (k1 k2 : Option (List Nat)) :
    ((k1 ≠ none ∧ k1 ≠ some [] ∧ k2 ≠ none ∧ k2 ≠ some []) →
      sdoCryptoRSALen k1 k2 = { ret := 0, conversionAttempted := false })
  ∧ (¬ (k1 ≠ none ∧ k1 ≠ some [] ∧ k2 ≠ none ∧ k2 ≠ some []) →
      (sdoCryptoRSALen k1 k2).conversionAttempted = true) := by
  constructor
  · intro h
    simp [sdoCryptoRSALen, h]
  · intro h
    unfold sdoCryptoRSALen
    rw [if_neg h]
    cases hc : convert2pkey k1 k2 <;> rfl

/-- C9 witness: concrete valid key material, discharged through the claim
theorem's first conjunct. -/
theorem rsaLen_valid_returns_zero_witness :
    sdoCryptoRSALen (some [1]) (some [2])
      = { ret := 0, conversionAttempted := false } :=
  (rsaLen_valid_returns_zero (some [1]) (some [2])).1 (by decide)

/-! ### Group-signature backend: `EPID_Init` / `EPID_Sign`
(epid_sdk_interface.c, general-purpose build: neither `EPID_R6` nor
`EPID_TINY` nor `TARGET_OS_FREERTOS` defined, so `EPID_Init` takes the
`random_init` path and `EPID_Sign` is the variant at lines 466-566 that
creates a fresh member context on every call).

The process-wide globals are an explicit `EpidState`.  The sizes of the
external EPID SDK structures (`EpidCaCertificate`, `GroupPubKey`,
`PrivKey`, `CompressedPrivKey`) are parameters, and the outcomes of the
EPID SDK calls are oracles.  Copying into a fixed-size global via
`memcpy_s` is abstracted as replacing the field's byte list; `memcpy_s`
itself fails when the source length exceeds the destination size. -/

/-- EPID SDK status values distinguished by the source. -/
inductive EpidStatus
  | noErr
  | sigRevokedInSigRl
  | errOther
deriving DecidableEq, Repr

/-- The process-wide state of the attestation backend:
`g_epidInitialized`, `g_cacert`, `g_groupPublicKey`, `g_priv_key`. -/
structure EpidState where
  initialized : Bool
  cacert : List Nat
  groupPubKey : List Nat
  privKey : List Nat
deriving DecidableEq, Repr

/-- The globals at program start: flag clear, all buffers zero (the
statics are zero-initialized). -/
def epidInitialState (szCacert szGpk szPriv : Nat) : EpidState :=
  { initialized := false, cacert := List.replicate szCacert 0,
    groupPubKey := List.replicate szGpk 0,
    privKey := List.replicate szPriv 0 }

/-- The source's stub CA-authorization check: accepts unconditionally. -/
def IsCaCertAuthorizedByRootCa (_data : List Nat) : Bool := true

/-- Observable outcome of `EPID_Init`: return value, resulting global
state, whether the private-key size validation ran, and whether
`EpidDecompressPrivKey` was invoked. -/
structure EpidInitOut where
  ret : Int
  st : EpidState
  sizeChecked : Bool
  decompressAttempted : Bool
deriving DecidableEq, Repr

/-- The tail of `EPID_Init` after the private-key block: `random_init`
(whose return is propagated when non-zero), then `g_epidInitialized`
is set and 0 returned. -/
def epidInitTail (st : EpidState) (sizeChecked decompressAttempted : Bool)
    (randomInitRet : Int) : EpidInitOut :=
  if randomInitRet ≠ 0 then
    ⟨randomInitRet, st, sizeChecked, decompressAttempted⟩
  else ⟨0, { st with initialized := true }, sizeChecked, decompressAttempted⟩

/-- Shallow embedding of `EPID_Init` (lines 203-323, general-purpose
build): copies the CA certificate when supplied (failing on a size
mismatch), runs the (always-true) CA authorization stub, copies the
group public key when supplied with a non-zero length (failing when it
exceeds the destination), then — only when `privateKey` is non-NULL —
validates its length against `sizeof(PrivKey)` and
`sizeof(CompressedPrivKey)`, decompressing in the latter case and
failing on any other length, and finally initializes the PRNG and sets
the initialized flag. -/
def EPID_Init (st0 : EpidState) (szCacert szGpk szPriv szComp : Nat)
    (signedGroupPublicKey privateKey cacertData : Option (List Nat))
    (decompressResult : Option (List Nat)) (randomInitRet : Int) :
    EpidInitOut :=
  match
    (match cacertData with
     | some c =>
       if c.length = szCacert then some { st0 with cacert := c } else none
     | none => some st0) with
  | none => ⟨-1, st0, false, false⟩
  | some st1 =>
    if IsCaCertAuthorizedByRootCa st1.cacert = false then
      ⟨-1, st1, false, false⟩
    else
      match
        (match signedGroupPublicKey with
         | some g =>
           if g.length = 0 then some st1
           else if g.length ≤ szGpk then some { st1 with groupPubKey := g }
           else none
         | none => some st1) with
      | none => ⟨-1, st1, false, false⟩
      | some st2 =>
        match privateKey with
        | some p =>
          if p.length = szPriv then
            epidInitTail { st2 with privKey := p } true false randomInitRet
          else if p.length = szComp then
            match decompressResult with
            | some d =>
              epidInitTail { st2 with privKey := d } true true randomInitRet
            | none => ⟨-1, st2, true, true⟩
          else ⟨-1, st2, true, false⟩
        | none => epidInitTail st2 false false randomInitRet

/-- The signature object `EPID_Sign` returns (`SDOBits_t`): only its
byte size is observable to the claims. -/
structure SigBits where
  byteSz : Nat
deriving DecidableEq, Repr

/-- Observable outcome of `EPID_Sign`: the returned signature object
(`none` = NULL) and whether the "signature revoked in SigRL" report
fired. -/
structure EpidSignOut where
  sig : Option SigBits
  reportedRevoked : Bool
deriving DecidableEq, Repr

/-- Shallow embedding of the general-purpose `EPID_Sign` (lines
466-566): sanity checks, the initialized-flag gate, fresh member
creation from the supplied public key and the process-wide private key,
precomputation write, hash-algorithm selection, signature sizing with
`EpidGetSigSize` applied to the supplied revocation list, the `EpidSign`
call itself (which receives the full revocation list), and packaging.
The local `result` the "Report Result" block inspects is initialized to
`kEpidErr` and never assigned after the sign call, so the inner
`kEpidSigRevokedInSigRl == result` test can never hold.  Whether the
signer's key is in the revocation list is invisible to this control
flow; only `EpidSign`'s status `epidSignSt` matters. -/
def EPID_Sign (st : EpidState) (dataNull : Bool) (dataLen : Nat)
    (bGroupPublicKey sigRl : Option (List Nat)) (sigRlSize : Nat)
    (getSigSize : Option (List Nat) → Nat)
    (memberCreateOk writePrecompOk setHashOk mallocSigOk : Bool)
    (epidSignSt : EpidStatus) (mallocBitsOk : Bool) : EpidSignOut :=
  if dataNull then ⟨none, false⟩
  else if dataLen = 0 then ⟨none, false⟩
  else if st.initialized = false then ⟨none, false⟩
  else if memberCreateOk = false then ⟨none, false⟩
  else if writePrecompOk = false then ⟨none, false⟩
  else if setHashOk = false then ⟨none, false⟩
  else if mallocSigOk = false then ⟨none, false⟩
  else if epidSignSt ≠ EpidStatus.noErr then ⟨none, false⟩
  else
    let reported := decide (EpidStatus.errOther = EpidStatus.sigRevokedInSigRl)
    if mallocBitsOk = false then ⟨none, reported⟩
    else ⟨some ⟨getSigSize sigRl⟩, reported⟩

/-! ### Protocol step `msg10` (msg10.c, non-TPM build: the
`ps_get_m_string` path)

The output writer `sdow` is a list of abstract write events; the state
enum and the writer are the session-state components the claim names.
`ps_get_m_string` is external: its success flag is an oracle, and on
success its writes into the `ps` object are the `mString` event. -/

/-- Abstract events written into the `sdow` output block writer. -/
inductive WriteEv
  | nextBlock
  | beginObject
  | tagM
  | mString
  | endObject
deriving DecidableEq, Repr

/-- The DI protocol states touched by `msg10`. -/
inductive DIState
  | appStart
  | setCredentials
deriving DecidableEq, Repr

/-- The session-state components of `SDOProt_t` that `msg10` reads or
writes: the protocol state enum and the output writer. -/
structure SDOProt where
  state : DIState
  sdow : List WriteEv
deriving DecidableEq, Repr

/-- Shallow embedding of `msg10` (lines 30-79, non-TPM build): it first
writes the block start, object start and the "m" tag into `ps->sdow`,
then calls `ps_get_m_string`; on failure it returns -1 via the `err`
label without touching `ps->state`, on success it ends the object, sets
`ps->state` to `SDO_STATE_DI_SET_CREDENTIALS` and returns 0. -/
def msg10 (ps : SDOProt) (mStringOk : Bool) : Int × SDOProt :=
  let w := ps.sdow ++ [WriteEv.nextBlock, WriteEv.beginObject, WriteEv.tagM]
  if mStringOk = false then (-1, { ps with sdow := w })
  else (0, { state := DIState.setCredentials,
             sdow := w ++ [WriteEv.mString, WriteEv.endObject] })

/-! ### Claim C4, C6, C10 theorems -/

/-- C4: after successful initialization, whenever the backend calls and
in particular `EpidSign` succeed, the general-purpose `EPID_Sign`
returns a non-null signature object whose byte size equals the
dynamically computed signature size (`EpidGetSigSize`) for the supplied
revocation list — for every revocation list, so in particular for one
containing the signer's private key, whose membership the function's
control flow cannot even observe — and the function neither suppresses
the signature on account of revocation nor reports a revoked-in-list
status (its never-assigned `result` variable keeps the report dead). -/
theorem epidSign_full_signature (st : EpidState) (dataLen sigRlSize : Nat)
    (pubKey sigRl : Option (List Nat)) (getSigSize : Option (List Nat) → Nat)
    (hinit : st.initialized = true) (hlen : dataLen ≠ 0) :
    EPID_Sign st false dataLen pubKey sigRl sigRlSize getSigSize true true
        true true EpidStatus.noErr true
      = ⟨some ⟨getSigSize sigRl⟩, false⟩ := by
  simp [EPID_Sign, hinit, hlen]

/-- C4 witness: a concrete signing call against an initialized state and
a non-empty revocation list, discharged through the claim theorem. -/
theorem epidSign_full_signature_witness :
    EPID_Sign ⟨true, [], [], []⟩ false 1 (some [1]) (some [9, 9, 9]) 3
        (fun _ => 5) true true true true EpidStatus.noErr true
      = ⟨some ⟨5⟩, false⟩ :=
  epidSign_full_signature ⟨true, [], [], []⟩ 1 3 (some [1]) (some [9, 9, 9])
    (fun _ => 5) rfl (by decide)

/-- C10: `EPID_Init` called with a NULL `privateKey` skips the
private-key block entirely — the size validation never runs, no
decompression is attempted, no invalid-key-size failure is possible —
and, when the remaining steps succeed (CA certificate of the right size
or absent, group public key fitting its destination or absent,
`random_init` returning 0), it returns 0 with the process-wide
initialized flag set while the stored private key remains all-zero, so
the general-purpose `EPID_Sign` subsequently runs against the zeroed
key and produces a signature. -/
theorem epidInit_null_privateKey (szCacert szGpk szPriv szComp : Nat)
    (gpk cacert dec : Option (List Nat))
    (getSigSize : Option (List Nat) → Nat) (sigRl : Option (List Nat))
    (hcac : ∀ c, cacert = some c → c.length = szCacert)
    (hgpk : ∀ g, gpk = some g → g.length ≤ szGpk) :
    ((EPID_Init (epidInitialState szCacert szGpk szPriv) szCacert szGpk
        szPriv szComp gpk none cacert dec 0).ret = 0)
  ∧ ((EPID_Init (epidInitialState szCacert szGpk szPriv) szCacert szGpk
        szPriv szComp gpk none cacert dec 0).st.initialized = true)
  ∧ ((EPID_Init (epidInitialState szCacert szGpk szPriv) szCacert szGpk
        szPriv szComp gpk none cacert dec 0).st.privKey
      = List.replicate szPriv 0)
  ∧ ((EPID_Init (epidInitialState szCacert szGpk szPriv) szCacert szGpk
        szPriv szComp gpk none cacert dec 0).sizeChecked = false)
  ∧ ((EPID_Init (epidInitialState szCacert szGpk szPriv) szCacert szGpk
        szPriv szComp gpk none cacert dec 0).decompressAttempted = false)
  ∧ (EPID_Sign (EPID_Init (epidInitialState szCacert szGpk szPriv) szCacert
        szGpk szPriv szComp gpk none cacert dec 0).st false 1 gpk sigRl 0
        getSigSize true true true true EpidStatus.noErr true
      = ⟨some ⟨getSigSize sigRl⟩, false⟩) := by
  have key : ∃ st2 : EpidState,
      EPID_Init (epidInitialState szCacert szGpk szPriv) szCacert szGpk
          szPriv szComp gpk none cacert dec 0
        = ⟨0, { st2 with initialized := true }, false, false⟩
      ∧ st2.privKey = List.replicate szPriv 0 := by
    rcases hc : cacert with - | c
    · rcases hg : gpk with - | g
      · exact ⟨epidInitialState szCacert szGpk szPriv,
          by simp [EPID_Init, epidInitTail, IsCaCertAuthorizedByRootCa],
          by simp [epidInitialState]⟩
      · have hgl := hgpk g hg
        by_cases hg0 : g.length = 0
        · exact ⟨epidInitialState szCacert szGpk szPriv,
            by simp [EPID_Init, epidInitTail, IsCaCertAuthorizedByRootCa, hg0],
            by simp [epidInitialState]⟩
        · refine ⟨{ epidInitialState szCacert szGpk szPriv with
            groupPubKey := g }, ?_, by simp [epidInitialState]⟩
          simp [EPID_Init, epidInitTail, IsCaCertAuthorizedByRootCa, hg0, hgl]
    · have hcl := hcac c hc
      rcases hg : gpk with - | g
      · exact ⟨{ epidInitialState szCacert szGpk szPriv with cacert := c },
          by simp [EPID_Init, epidInitTail, IsCaCertAuthorizedByRootCa, hcl],
          by simp [epidInitialState]⟩
      · have hgl := hgpk g hg
        by_cases hg0 : g.length = 0
        · exact ⟨{ epidInitialState szCacert szGpk szPriv with cacert := c },
            by simp [EPID_Init, epidInitTail, IsCaCertAuthorizedByRootCa,
              hcl, hg0],
            by simp [epidInitialState]⟩
        · refine ⟨{ epidInitialState szCacert szGpk szPriv with
            cacert := c, groupPubKey := g }, ?_, by simp [epidInitialState]⟩
          simp [EPID_Init, epidInitTail, IsCaCertAuthorizedByRootCa, hcl,
            hg0, hgl]
  obtain ⟨st2, heq, hpk⟩ := key
  rw [heq]
  refine ⟨rfl, rfl, hpk, rfl, rfl, ?_⟩
  simp [EPID_Sign]

/-- C10 witness: a concrete run with no CA certificate and no public key
supplied, discharged through the claim theorem. -/
theorem epidInit_null_privateKey_witness :
    (EPID_Init (epidInitialState 4 4 8) 4 4 8 6 none none none none
        0).st.privKey = List.replicate 8 0 :=
  (epidInit_null_privateKey 4 4 8 6 none none none (fun _ => 5) none
    (by intro c h; cases h) (by intro g h; cases h)).2.2.1

/-- C6 (counterexample to the claim as stated): injecting a
`ps_get_m_string` failure into `msg10` at a concrete session state
returns -1 but does NOT leave the session state unchanged: the output
writer `ps->sdow` has already received the block start, object start and
"m" tag, which are not rolled back. -/
theorem msg10_failure_mutates_sdow :
    (msg10 ⟨DIState.appStart, []⟩ false).1 = -1
  ∧ (msg10 ⟨DIState.appStart, []⟩ false).2 ≠ ⟨DIState.appStart, []⟩ := by
  decide

/-- C6 (amended): whenever `ps_get_m_string` fails, `msg10` returns -1
without advancing the protocol state enum (`ps->state` is untouched),
but the output message writer is not unchanged: it retains the already
written preamble (block start, object start, tag "m"). -/
theorem msg10_failure_preserves_state_enum (ps : SDOProt) :
    (msg10 ps false).1 = -1
  ∧ (msg10 ps false).2.state = ps.state
  ∧ (msg10 ps false).2.sdow
      = ps.sdow ++ [WriteEv.nextBlock, WriteEv.beginObject, WriteEv.tagM] := by
  simp [msg10]
